import Mathlib

/-!
Verification of the Minecraft-Server-with-Syncing coordinator.

Shallow embedding of the core modules (`lib/lock.py`, `lib/backup.py`,
`lib/server.py`, `lib/syncthing.py`, `lib/integrity.py`) of the repository.
External effects (filesystem reads/writes, HTTP, the wall clock, the ISO
timestamp parser of the standard library) are passed in as explicit
parameters or outcome values; the control flow of each embedded function is
translated directly from the Python source.
-/

namespace MCServer

/-! ## Lock manager (`lib/lock.py`) -/

/-- `LockInfo` dataclass: contents of the replicated lock file. -/
structure LockInfo where
  hostname : String
  started_at : String
  last_heartbeat : String
  pid : Int
deriving DecidableEq, Repr

/-- `LockInfo.heartbeat_age`: `timestamp_age_seconds(self.last_heartbeat)`,
or `float('inf')` when parsing raises.  `parseTs` abstracts the ISO parser
`parse_timestamp` (in `lib/utils.py`, wrapping the standard library): it
returns the parsed instant as UTC epoch seconds, or `none` when parsing
raises `ValueError`/`TypeError`.  `now` is the current UTC epoch time, so
the age is `now - t`. -/
def heartbeat_age (parseTs : String → Option ℚ) (now : ℚ) (li : LockInfo) : WithTop ℚ :=
  match parseTs li.last_heartbeat with
  | some t => ((now - t : ℚ) : WithTop ℚ)
  | none => ⊤

/-- `LockInfo.is_stale`: `timestamp_age_seconds(last_heartbeat) > threshold`,
and `True` when the timestamp cannot be parsed. -/
def is_stale (parseTs : String → Option ℚ) (now : ℚ) (li : LockInfo)
    (threshold : ℚ) : Bool :=
  match parseTs li.last_heartbeat with
  | some t => decide (now - t > threshold)
  | none => true

/-- `LockManager.write_lock(pid)`: builds a fresh `LockInfo` for the current
host (`get_hostname()` = `self`, `get_timestamp()` = `ts` for both
`started_at` and `last_heartbeat`) and writes it over the lock file,
without ever reading the previous contents.  `fs` is the pre-state of the
lock file, `writeOk` tells whether the filesystem write succeeds
(`OSError` otherwise).  Returns the Python return value together with the
post-state of the lock file. -/
def write_lock (fs : Option LockInfo) (writeOk : Bool) (self ts : String)
    (pid : Int) : Bool × Option LockInfo :=
  let fresh : LockInfo := ⟨self, ts, ts, pid⟩
  if writeOk then (true, some fresh) else (false, fs)

/-- `LockManager.check_lock_status()`: `readResult` is the value returned by
`read_lock()` (`none` when the file is missing, unreadable or not a YAML
mapping). -/
def check_lock_status (readResult : Option LockInfo) (self : String)
    (parseTs : String → Option ℚ) (now staleThreshold : ℚ) :
    String × Option LockInfo :=
  match readResult with
  | none => ("free", none)
  | some li =>
    if li.hostname = self then
      ("owned", some li)
    else
      if is_stale parseTs now li staleThreshold then
        ("other_stale", some li)
      else
        ("other_active", some li)

/-- `LockManager.acquire_lock(pid, race_wait)`: write the lock, sleep the
race window, re-read, and compare the hostname of the re-read record with
the current host.  `reread` is the value `read_lock()` returns after the
race window (the file is replicated, so it may differ from what was
written). -/
def acquire_lock (fs : Option LockInfo) (writeOk : Bool)
    (reread : Option LockInfo) (self ts : String) (pid : Int) : Bool :=
  if (write_lock fs writeOk self ts pid).1 = false then false
  else
    match reread with
    | none => false
    | some li => li.hostname == self

end MCServer

namespace MCServer

/-- Auxiliary: `is_stale` holds exactly when the heartbeat age (with +∞ for
an unparseable timestamp) exceeds the threshold. -/
theorem is_stale_iff_age (parseTs : String → Option ℚ) (now : ℚ)
    (li : LockInfo) (threshold : ℚ) :
    is_stale parseTs now li threshold = true ↔
      (threshold : WithTop ℚ) < heartbeat_age parseTs now li := by
  unfold is_stale heartbeat_age
  cases h : parseTs li.last_heartbeat with
  | none => simp
  | some t =>
    simp only [decide_eq_true_eq, gt_iff_lt]
    exact WithTop.coe_lt_coe.symm

/-- C1: assuming the initial write of the lock record (naming the current
host) succeeds, `acquire_lock` returns `true` iff the re-read after the
race window yields a record whose hostname equals the current host; it
returns `false` when the file is missing on re-read or when the re-read
hostname differs from the current host. -/
theorem C1_acquire_lock_race_outcome (fs : Option LockInfo)
    (reread : Option LockInfo) (self ts : String) (pid : Int) :
    ((write_lock fs true self ts pid).2 = some ⟨self, ts, ts, pid⟩)
    ∧ (acquire_lock fs true reread self ts pid = true ↔
        ∃ li, reread = some li ∧ li.hostname = self)
    ∧ (reread = none → acquire_lock fs true reread self ts pid = false)
    ∧ (∀ li, reread = some li → li.hostname ≠ self →
        acquire_lock fs true reread self ts pid = false) := by
  refine ⟨rfl, ?_, ?_, ?_⟩
  · cases reread with
    | none =>
      simp [acquire_lock, write_lock]
    | some li =>
      simp [acquire_lock, write_lock]
  · intro h
    subst h
    rfl
  · intro li h hne
    subst h
    simp [acquire_lock, write_lock, hne]

/-- C2: `check_lock_status` returns `free` iff no valid lock record can be
read; `owned` iff the record's hostname equals the current host;
`other_active` iff the hostname differs and the heartbeat age is at most
the stale threshold; `other_stale` iff the hostname differs and the
heartbeat age exceeds the stale threshold. -/
theorem C2_check_lock_status_cases (readResult : Option LockInfo)
    (self : String) (parseTs : String → Option ℚ) (now staleThreshold : ℚ) :
    ((check_lock_status readResult self parseTs now staleThreshold).1 = "free"
        ↔ readResult = none)
    ∧ ((check_lock_status readResult self parseTs now staleThreshold).1 = "owned"
        ↔ ∃ li, readResult = some li ∧ li.hostname = self)
    ∧ ((check_lock_status readResult self parseTs now staleThreshold).1 = "other_active"
        ↔ ∃ li, readResult = some li ∧ li.hostname ≠ self ∧
            heartbeat_age parseTs now li ≤ (staleThreshold : WithTop ℚ))
    ∧ ((check_lock_status readResult self parseTs now staleThreshold).1 = "other_stale"
        ↔ ∃ li, readResult = some li ∧ li.hostname ≠ self ∧
            (staleThreshold : WithTop ℚ) < heartbeat_age parseTs now li) := by
  cases readResult with
  | none =>
    have hstat : check_lock_status none self parseTs now staleThreshold =
        ("free", none) := rfl
    rw [hstat]
    refine ⟨⟨fun _ => rfl, fun _ => rfl⟩, ?_, ?_, ?_⟩ <;>
      · constructor
        · intro h
          simp at h
        · rintro ⟨li, h, -⟩
          exact absurd h (by simp)
  | some li =>
    by_cases hh : li.hostname = self
    · have hstat : check_lock_status (some li) self parseTs now staleThreshold =
          ("owned", some li) := by
        simp [check_lock_status, hh]
      rw [hstat]
      refine ⟨?_, ?_, ?_, ?_⟩
      · constructor
        · intro h
          simp at h
        · intro h
          exact absurd h (by simp)
      · exact ⟨fun _ => ⟨li, rfl, hh⟩, fun _ => rfl⟩
      · constructor
        · intro h
          simp at h
        · rintro ⟨li', h, hne, -⟩
          cases h
          exact absurd hh hne
      · constructor
        · intro h
          simp at h
        · rintro ⟨li', h, hne, -⟩
          cases h
          exact absurd hh hne
    · by_cases hs : is_stale parseTs now li staleThreshold = true
      · have hstat : check_lock_status (some li) self parseTs now staleThreshold =
            ("other_stale", some li) := by
          simp [check_lock_status, hh, hs]
        rw [hstat]
        refine ⟨?_, ?_, ?_, ?_⟩
        · constructor
          · intro h
            simp at h
          · intro h
            exact absurd h (by simp)
        · constructor
          · intro h
            simp at h
          · rintro ⟨li', h, hown⟩
            cases h
            exact absurd hown hh
        · constructor
          · intro h
            simp at h
          · rintro ⟨li', h, -, hle⟩
            cases h
            exact absurd ((is_stale_iff_age parseTs now li staleThreshold).mp hs)
              (not_lt.mpr hle)
        · exact ⟨fun _ => ⟨li, rfl, hh,
            (is_stale_iff_age parseTs now li staleThreshold).mp hs⟩,
            fun _ => rfl⟩
      · have hs' : is_stale parseTs now li staleThreshold = false :=
          Bool.eq_false_iff.mpr hs
        have hage : heartbeat_age parseTs now li ≤ (staleThreshold : WithTop ℚ) := by
          by_contra hcon
          exact hs ((is_stale_iff_age parseTs now li staleThreshold).mpr
            (not_le.mp hcon))
        have hstat : check_lock_status (some li) self parseTs now staleThreshold =
            ("other_active", some li) := by
          simp [check_lock_status, hh, hs']
        rw [hstat]
        refine ⟨?_, ?_, ?_, ?_⟩
        · constructor
          · intro h
            simp at h
          · intro h
            exact absurd h (by simp)
        · constructor
          · intro h
            simp at h
          · rintro ⟨li', h, hown⟩
            cases h
            exact absurd hown hh
        · exact ⟨fun _ => ⟨li, rfl, hh, hage⟩, fun _ => rfl⟩
        · constructor
          · intro h
            simp at h
          · rintro ⟨li', h, -, hlt⟩
            cases h
            exact absurd hlt (not_lt.mpr hage)

/-- C7: when the `last_heartbeat` field cannot be parsed as an ISO timestamp
(the parser raises, modelled by `parseTs _ = none`), `heartbeat_age`
returns +∞ and `is_stale` returns `true` for every finite stale
threshold. -/
theorem C7_malformed_heartbeat_stale (parseTs : String → Option ℚ)
    (now : ℚ) (li : LockInfo)
    (h : parseTs li.last_heartbeat = none) :
    heartbeat_age parseTs now li = ⊤ ∧
      ∀ threshold : ℚ, is_stale parseTs now li threshold = true := by
  constructor
  · unfold heartbeat_age
    rw [h]
  · intro threshold
    unfold is_stale
    rw [h]

/-- Witness for C7: a concrete record with an empty heartbeat under a parser
that rejects it. -/
theorem C7_malformed_heartbeat_stale_witness :
    heartbeat_age (fun _ => none) 0 ⟨"alpha", "", "", 0⟩ = ⊤ ∧
      ∀ threshold : ℚ, is_stale (fun _ => none) 0 ⟨"alpha", "", "", 0⟩ threshold = true :=
  C7_malformed_heartbeat_stale (fun _ => none) 0 ⟨"alpha", "", "", 0⟩ rfl

/-- C10: `write_lock` never inspects the existing lock file: whatever the
pre-state `fs` (including a fresh foreign record), when the filesystem
write succeeds it returns `true` and the post-state is a fresh record for
the current host; and its returned boolean always equals the write-success
flag. -/
theorem C10_write_lock_unconditional (fs : Option LockInfo)
    (self ts : String) (pid : Int) :
    (write_lock fs true self ts pid = (true, some ⟨self, ts, ts, pid⟩))
    ∧ ∀ writeOk : Bool, (write_lock fs writeOk self ts pid).1 = writeOk := by
  refine ⟨rfl, ?_⟩
  intro writeOk
  cases writeOk <;> rfl

end MCServer

namespace MCServer

/-! ## Snapshot engine (`lib/backup.py`) -/

/-- The loop body of `BackupManager.prune_backups`.  `backups` is the list of
snapshot timestamps sorted newest first (as produced by `list_backups`);
`total` is `len(backups)`; `deleted` counts deletions so far.  For each
remaining snapshot: break out (keeping the rest on disk) once
`len(backups) - len(deleted) <= keep_minimum`; otherwise delete it when its
timestamp is strictly below the cutoff `now - keep_days`.  Returns the
deleted list (in deletion order) and the list of snapshots still on disk.
Deletions (`unlink`) are assumed to succeed. -/
def pruneAux (keepMin total : Nat) (cutoff : Int) :
    List Int → Nat → List Int × List Int
  | [], _ => ([], [])
  | b :: rest, deleted =>
    if total - deleted ≤ keepMin then
      ([], b :: rest)
    else
      if b < cutoff then
        (b :: (pruneAux keepMin total cutoff rest (deleted + 1)).1,
          (pruneAux keepMin total cutoff rest (deleted + 1)).2)
      else
        ((pruneAux keepMin total cutoff rest deleted).1,
          b :: (pruneAux keepMin total cutoff rest deleted).2)

/-- `BackupManager.prune_backups()` (returned value: the deleted snapshots).
No-op when `auto_prune` is off or when there are at most `keep_minimum`
snapshots. -/
def prune_backups (autoPrune : Bool) (keepMin : Nat) (cutoff : Int)
    (backups : List Int) : List Int :=
  if autoPrune = false then []
  else if backups.length ≤ keepMin then []
  else (pruneAux keepMin backups.length cutoff backups 0).1

/-- The snapshots remaining on disk after `prune_backups` (the input list
minus the deleted ones, in order). -/
def prune_kept (autoPrune : Bool) (keepMin : Nat) (cutoff : Int)
    (backups : List Int) : List Int :=
  if autoPrune = false then backups
  else if backups.length ≤ keepMin then backups
  else (pruneAux keepMin backups.length cutoff backups 0).2

/-- Filesystem state relevant to `restore_backup`: the contents of the
restore target directory and of the sibling rollback directory
`<target>.old` (`none` = absent); `α` is the type of directory trees. -/
structure FSState (α : Type) where
  target : Option α
  oldDir : Option α
deriving DecidableEq, Repr

/-- Outcome of `zipfile.extractall` into the parent of the target: on
success the target directory holds `res`; on an `OSError`/`BadZipFile`
failure it holds whatever partial contents `leftover` were written. -/
inductive ExtractOutcome (α : Type) where
  | ok (res : Option α)
  | failed (leftover : Option α)
deriving DecidableEq, Repr

/-- `BackupManager.restore_backup(backup, target)`: raise when the archive
file is missing; otherwise rename an existing target to `<target>.old`
(deleting a stale `<target>.old` first), extract, and on success delete the
rollback directory; on extraction failure delete the partial target, move
the rollback directory back over the target, and raise `BackupError`.
Returns the Python outcome (`Except.error` = raised) with the filesystem
post-state; the rename/delete operations themselves are assumed to
succeed. -/
def restore_backup {α : Type} (fs : FSState α) (backupExists : Bool)
    (ex : ExtractOutcome α) : Except Unit Bool × FSState α :=
  if backupExists = false then
    (Except.error (), fs)
  else
    match fs.target with
    | some t =>
      match ex with
      | ExtractOutcome.ok res => (Except.ok true, ⟨res, none⟩)
      | ExtractOutcome.failed _ => (Except.error (), ⟨some t, none⟩)
    | none =>
      match ex with
      | ExtractOutcome.ok res => (Except.ok true, ⟨res, fs.oldDir⟩)
      | ExtractOutcome.failed leftover => (Except.error (), ⟨leftover, fs.oldDir⟩)

/-- `BackupManager.create_backup`: each regular file under the world folder
is stored in the archive under `file_path.relative_to(world_folder.parent)`,
i.e. with the world folder's basename prepended to its world-relative path.
A file is a pair (path components, byte contents). -/
def create_backup (worldName : String) (files : List (List String × List Nat)) :
    List (List String × List Nat) :=
  files.map (fun f => (worldName :: f.1, f.2))

/-- Extraction of an archive into the parent of the target directory
(`zf.extractall(target.parent)` in `restore_backup`): the resulting
contents of the world folder are the entries whose first path component is
the world folder's basename, with that component stripped. -/
def extract_to_parent (worldName : String)
    (entries : List (List String × List Nat)) :
    List (List String × List Nat) :=
  entries.filterMap (fun e =>
    match e.1 with
    | [] => none
    | n :: rest => if n = worldName then some (rest, e.2) else none)

end MCServer

namespace MCServer

/-- Auxiliary: the loop partitions its input, so the deleted and kept lists
together have the length of the input. -/
theorem pruneAux_length (keepMin total : Nat) (cutoff : Int)
    (lst : List Int) :
    ∀ deleted : Nat,
      (pruneAux keepMin total cutoff lst deleted).1.length
        + (pruneAux keepMin total cutoff lst deleted).2.length
        = lst.length := by
  induction lst with
  | nil =>
    intro deleted
    simp [pruneAux]
  | cons b rest ih =>
    intro deleted
    by_cases hbrk : total - deleted ≤ keepMin
    · simp [pruneAux, hbrk]
    · by_cases hdel : b < cutoff
      · simp only [pruneAux, if_neg hbrk, if_pos hdel, List.length_cons]
        have := ih (deleted + 1)
        omega
      · simp only [pruneAux, if_neg hbrk, if_neg hdel, List.length_cons]
        have := ih deleted
        omega

/-- Auxiliary: after the loop, either every kept snapshot is at or after the
cutoff, or the loop broke out and `total - (deleted + |deleted list|) ≤
keep_minimum`. -/
theorem pruneAux_kept (keepMin total : Nat) (cutoff : Int)
    (lst : List Int) :
    ∀ deleted : Nat,
      (∀ b ∈ (pruneAux keepMin total cutoff lst deleted).2, cutoff ≤ b)
      ∨ total - (deleted + (pruneAux keepMin total cutoff lst deleted).1.length)
          ≤ keepMin := by
  induction lst with
  | nil =>
    intro deleted
    left
    simp [pruneAux]
  | cons b rest ih =>
    intro deleted
    by_cases hbrk : total - deleted ≤ keepMin
    · right
      simp only [pruneAux, if_pos hbrk, List.length_nil]
      omega
    · by_cases hdel : b < cutoff
      · simp only [pruneAux, if_neg hbrk, if_pos hdel, List.length_cons]
        rcases ih (deleted + 1) with hall | hlen
        · left
          exact hall
        · right
          omega
      · simp only [pruneAux, if_neg hbrk, if_neg hdel]
        rcases ih deleted with hall | hlen
        · left
          intro x hx
          rcases List.mem_cons.mp hx with hx | hx
          · exact hx ▸ not_lt.mp hdel
          · exact hall x hx
        · right
          exact hlen

end MCServer

namespace MCServer

/-- C3 counterexample: with 8 snapshots aged 1, 10, 20, 31, 40, 50, 60, 90
days (timestamps in days relative to now, cutoff = −30 for
keep_days = 30) and keep_minimum = 5, `prune_backups` deletes the
snapshots aged 31, 40 and 50 days — not the claimed {50, 60, 90}.  The
loop runs newest-to-oldest and stops once 5 snapshots remain, so the
three newest over-age snapshots are deleted and the two oldest survive. -/
theorem C3_prune_scenario_refuted :
    prune_backups true 5 (-30) [-1, -10, -20, -31, -40, -50, -60, -90]
        = [-31, -40, -50]
    ∧ prune_backups true 5 (-30) [-1, -10, -20, -31, -40, -50, -60, -90]
        ≠ [-50, -60, -90] := by
  constructor
  · rfl
  · decide

/-- C3 (amended): on the 8-snapshot scenario `prune_backups` deletes exactly
the snapshots aged 31, 40 and 50 days, retaining the ones aged
1, 10, 20, 60, 90 days (still 5 = keep_minimum snapshots); and in general,
with auto-pruning enabled, after pruning either every retained snapshot is
within `keep_days` (at or after the cutoff) or at most `keep_minimum`
snapshots are retained — so no retained snapshot is both older than
`keep_days` and beyond the `keep_minimum` newest retained. -/
theorem C3_prune_retention_amended :
    (prune_backups true 5 (-30) [-1, -10, -20, -31, -40, -50, -60, -90]
        = [-31, -40, -50]
      ∧ prune_kept true 5 (-30) [-1, -10, -20, -31, -40, -50, -60, -90]
        = [-1, -10, -20, -60, -90])
    ∧ ∀ (keepMin : Nat) (cutoff : Int) (backups : List Int),
        (∀ b ∈ prune_kept true keepMin cutoff backups, cutoff ≤ b)
        ∨ (prune_kept true keepMin cutoff backups).length ≤ keepMin := by
  refine ⟨⟨rfl, rfl⟩, ?_⟩
  intro keepMin cutoff backups
  by_cases hlen : backups.length ≤ keepMin
  · right
    simp only [prune_kept, hlen]
    simp [hlen]
  · have hkept : prune_kept true keepMin cutoff backups =
        (pruneAux keepMin backups.length cutoff backups 0).2 := by
      simp [prune_kept, hlen]
    rcases pruneAux_kept keepMin backups.length cutoff backups 0 with hall | hbrk
    · left
      rw [hkept]
      exact hall
    · right
      rw [hkept]
      have hsum := pruneAux_length keepMin backups.length cutoff backups 0
      omega

/-- C6: if `restore_backup` fails after the safety rename (the target
existed, the archive was present, and extraction then failed), the error is
surfaced and the rollback directory has been moved back, so the target
directory holds exactly its pre-call contents (and the `.old` rollback
directory is gone). -/
theorem C6_restore_rollback {α : Type} (fs : FSState α) (t : α)
    (leftover : Option α) (hpre : fs.target = some t) :
    (restore_backup fs true (ExtractOutcome.failed leftover)).2.target = some t
    ∧ (restore_backup fs true (ExtractOutcome.failed leftover)).1
        = Except.error ()
    ∧ (restore_backup fs true (ExtractOutcome.failed leftover)).2.oldDir
        = none := by
  simp [restore_backup, hpre]

/-- Witness for C6: a concrete filesystem whose target directory (contents
`1`) survives a failed restore that left partial contents `7` behind. -/
theorem C6_restore_rollback_witness :
    (restore_backup (⟨some 1, some 2⟩ : FSState Nat) true
        (ExtractOutcome.failed (some 7))).2.target = some 1
    ∧ (restore_backup (⟨some 1, some 2⟩ : FSState Nat) true
        (ExtractOutcome.failed (some 7))).1 = Except.error ()
    ∧ (restore_backup (⟨some 1, some 2⟩ : FSState Nat) true
        (ExtractOutcome.failed (some 7))).2.oldDir = none :=
  C6_restore_rollback (⟨some 1, some 2⟩ : FSState Nat) 1 (some 7) rfl

/-- C8: extracting the archive produced by `create_backup` into the parent
of the working directory reproduces the working directory exactly — every
entry is stored under the working directory's basename, so stripping it
returns the original files with byte-equal contents and path-equal
layout. -/
theorem C8_snapshot_round_trip (worldName : String)
    (files : List (List String × List Nat)) :
    extract_to_parent worldName (create_backup worldName files) = files := by
  induction files with
  | nil => rfl
  | cons f rest ih =>
    simp only [create_backup, List.map_cons, extract_to_parent,
      List.filterMap_cons, if_pos rfl]
    simpa [create_backup, extract_to_parent] using ih

end MCServer

namespace MCServer

/-! ## Child supervisor (`lib/server.py`) -/

/-- Environment of one `MinecraftServer.stop(timeout)` call: whether the
process is running at entry, whether writing the `stop` line to its stdin
succeeds, whether it then exits before the timeout, whether it is still
running when `kill()` checks, and whether the force kill reaps it within
5 s. -/
structure StopEnv where
  running : Bool
  sendOk : Bool
  gracefulWithinTimeout : Bool
  runningAtKill : Bool
  killReaped : Bool
deriving DecidableEq, Repr

/-- `MinecraftServer.kill()`: `True` immediately when no longer running,
otherwise `True` iff the killed process is reaped within 5 seconds. -/
def kill (runningAtKill killReaped : Bool) : Bool :=
  if runningAtKill = false then true else killReaped

/-- `MinecraftServer.stop(timeout)`: returns `True` when not running; sends
`stop` (falling back to `kill()` if the send fails); waits for the process
up to the timeout and returns `True` on a graceful exit, otherwise returns
the result of `kill()`.  The second component records whether the forced
`kill()` path was taken. -/
def stop (env : StopEnv) : Bool × Bool :=
  if env.running = false then (true, false)
  else if env.sendOk = false then (kill env.runningAtKill env.killReaped, true)
  else if env.gracefulWithinTimeout then (true, false)
  else (kill env.runningAtKill env.killReaped, true)

/-- C4 (code bug): for a running child that ignores the `stop` command until
the timeout and is then force-killed successfully, `stop` takes the forced
path and still returns `True` — `stop` returns `self.kill()`, which is
`True` on a successful force kill, contradicting its documented contract
"True if stopped gracefully, False if force killed". -/
theorem C4_stop_true_after_force_kill :
    stop ⟨true, true, false, true, true⟩ = (true, true) := by
  decide

/-! ## Sync-daemon client (`lib/syncthing.py`) -/

/-- Python exceptions that can reach the `except` chain of
`SyncthingClient._request`. -/
inductive Exc where
  | urlError (connRefused : Bool)
  | httpError (code : Nat)
  | jsonDecodeError
  | timeoutError
  | syncthingStatusError
deriving DecidableEq, Repr

/-- `isinstance(e, urllib.error.URLError)`: `HTTPError` is a subclass of
`URLError` in Python's exception hierarchy, so it also matches. -/
def isURLError : Exc → Bool
  | Exc.urlError _ => true
  | Exc.httpError _ => true
  | _ => false

/-- `isinstance(e, urllib.error.HTTPError)`. -/
def isHTTPError : Exc → Bool
  | Exc.httpError _ => true
  | _ => false

/-- `isinstance(e, json.JSONDecodeError)`. -/
def isJSONDecodeError : Exc → Bool
  | Exc.jsonDecodeError => true
  | _ => false

/-- `isinstance(e, TimeoutError)`. -/
def isTimeoutError : Exc → Bool
  | Exc.timeoutError => true
  | _ => false

/-- Classification of a `_request` call: returned a parsed body, raised
`SyncthingUnavailable`, or raised `SyncthingError`. -/
inductive RequestResult where
  | ok
  | unavailable
  | apiError
deriving DecidableEq, Repr

/-- The `except` chain of `SyncthingClient._request`, checked in source
order: `URLError` first (both of its branches raise
`SyncthingUnavailable`), then `HTTPError`, then `JSONDecodeError` (both
raising `SyncthingError`), then `TimeoutError` (raising
`SyncthingUnavailable`); an exception matching none of the clauses (the
`SyncthingError` raised for a non-200 returned status) propagates. -/
def handle_exc (e : Exc) : RequestResult :=
  if isURLError e then RequestResult.unavailable
  else if isHTTPError e then RequestResult.apiError
  else if isJSONDecodeError e then RequestResult.apiError
  else if isTimeoutError e then RequestResult.unavailable
  else RequestResult.apiError

/-- Outcome of `urllib.request.urlopen` inside the `try` body: either a
response object (non-2xx responses are instead raised as `HTTPError`,
i.e. `Exc.httpError`), or a raised exception. -/
inductive HttpOutcome where
  | response (status : Nat) (bodyEmpty : Bool) (jsonOk : Bool)
  | raised (e : Exc)
deriving DecidableEq, Repr

/-- `SyncthingClient._request`: on a status-200 response, parse the body
(empty body yields an empty dict; a parse failure raises
`json.JSONDecodeError`); on any other returned status raise
`SyncthingError`; exceptions go through the `except` chain. -/
def st_request (outcome : HttpOutcome) : RequestResult :=
  match outcome with
  | HttpOutcome.response status bodyEmpty jsonOk =>
    if status = 200 then
      if bodyEmpty then RequestResult.ok
      else if jsonOk then RequestResult.ok
      else handle_exc Exc.jsonDecodeError
    else handle_exc Exc.syncthingStatusError
  | HttpOutcome.raised e => handle_exc e

/-- C5 (code bug): a non-2xx HTTP response (here a 500, raised by `urlopen`
as `HTTPError`) is classified `SyncthingUnavailable`, not `SyncthingError`:
because `HTTPError` subclasses `URLError` and the `except URLError` clause
comes first, the `except HTTPError` clause that would raise
`SyncthingError` is unreachable. -/
theorem C5_http_error_classified_unavailable :
    st_request (HttpOutcome.raised (Exc.httpError 500))
        = RequestResult.unavailable
    ∧ handle_exc (Exc.httpError 500) ≠ RequestResult.apiError := by
  decide

/-! ## Integrity scanner (`lib/integrity.py`) -/

/-- Result of `file_path.stat().st_size` on a region file: the size, or an
`OSError`. -/
inductive StatResult where
  | ok (size : Nat)
  | oserr
deriving DecidableEq, Repr

/-- The three issue kinds reported by the scanner. -/
inductive IssueType where
  | zero_byte
  | truncated
  | unreadable
deriving DecidableEq, Repr

/-- `check_region_file`: `zero_byte` for an empty file, `truncated` when the
size is below two 4096-byte header sectors or not a multiple of the sector
size, `unreadable` when `stat` raises, `none` otherwise. -/
def check_region_file (r : StatResult) : Option IssueType :=
  match r with
  | StatResult.oserr => some IssueType.unreadable
  | StatResult.ok size =>
    if size = 0 then some IssueType.zero_byte
    else if size < 4096 * 2 then some IssueType.truncated
    else if size % 4096 ≠ 0 then some IssueType.truncated
    else none

/-- `IntegrityReport` (the fields the scan loop fills in). -/
structure IntegrityReport where
  total_files : Nat
  checked_files : Nat
  issues : List IssueType
  error : Option String
deriving DecidableEq, Repr

/-- `check_world_integrity`: error reports when the world folder is missing
or holds no region folders; otherwise every `.mca` file (its stat outcome
listed in `files`) is counted and checked, collecting at most one issue per
file. -/
def check_world_integrity (worldExists : Bool) (regionFolderCount : Nat)
    (files : List StatResult) : IntegrityReport :=
  if worldExists = false then
    ⟨0, 0, [], some "World folder does not exist"⟩
  else if regionFolderCount = 0 then
    ⟨0, 0, [], some "No region folders found (world may be empty or invalid)"⟩
  else
    ⟨files.length, files.length, files.filterMap check_region_file, none⟩

end MCServer

namespace MCServer

/-- C9: a scanned region file is reported `zero_byte` iff its size is 0,
`truncated` iff its size is positive and below 8192 bytes or not a
multiple of 4096, `unreadable` iff `stat` raises, and issue-free
otherwise; each file contributes at most one issue, so every report
satisfies `checked_files ≥ |issues|`. -/
theorem C9_region_scan_classification :
    (∀ r : StatResult,
      (check_region_file r = some IssueType.zero_byte ↔ r = StatResult.ok 0)
      ∧ (check_region_file r = some IssueType.truncated ↔
          ∃ s, r = StatResult.ok s ∧ 0 < s ∧ (s < 8192 ∨ s % 4096 ≠ 0))
      ∧ (check_region_file r = some IssueType.unreadable ↔ r = StatResult.oserr)
      ∧ (check_region_file r = none ↔
          ∃ s, r = StatResult.ok s ∧ 8192 ≤ s ∧ s % 4096 = 0))
    ∧ ∀ (worldExists : Bool) (regionFolderCount : Nat)
        (files : List StatResult),
        (check_world_integrity worldExists regionFolderCount files).issues.length
          ≤ (check_world_integrity worldExists regionFolderCount files).checked_files := by
  constructor
  · intro r
    cases r with
    | oserr =>
      refine ⟨?_, ?_, ?_, ?_⟩ <;> simp [check_region_file]
    | ok s =>
      by_cases h0 : s = 0
      · subst h0
        refine ⟨?_, ?_, ?_, ?_⟩ <;> simp [check_region_file]
      · by_cases h1 : s < 4096 * 2
        · refine ⟨?_, ?_, ?_, ?_⟩ <;>
            simp [check_region_file, h0, h1] <;> omega
        · by_cases h2 : s % 4096 ≠ 0
          · refine ⟨?_, ?_, ?_, ?_⟩ <;>
              simp [check_region_file, h0, h1, h2] <;> omega
          · refine ⟨?_, ?_, ?_, ?_⟩ <;>
              simp [check_region_file, h0, h1, h2] <;> omega
  · intro worldExists regionFolderCount files
    by_cases hw : worldExists = false
    · simp [check_world_integrity, hw]
    · by_cases hr : regionFolderCount = 0
      · simp [check_world_integrity, hw, hr]
      · simp only [check_world_integrity, hw, hr, if_neg, if_false]
        simpa [check_world_integrity, hw, hr] using
          List.length_filterMap_le check_region_file files

end MCServer
